import Mathlib

/-!
Shallow embedding of the measurement engine of `speedtest.py`
(adv-speedtest-cli): latency statistics, the stability estimator,
the download worker loop, the upload progress tracker, and the
phase finalization arithmetic.  Real-valued quantities (times in
seconds, speeds in Mbps) are modelled by `ℚ`; byte counters by `ℕ`
(with `ℤ` for the shared accumulator, which in the source is a plain
Python int incremented by a computed delta).
-/

namespace Speedtest

/-! ### Latency statistics — `PingTest.calculate_ping_stats` -/

/-- The statistics record built by `calculate_ping_stats`.  The Python
dict stores `stddev`; here we store its square (`variance`) so the
record stays within `ℚ`; no claim concerns the `stddev` entry. -/
structure PingStats where
  min : ℚ
  max : ℚ
  avg : ℚ
  median : ℚ
  variance : ℚ
  count : ℕ
deriving DecidableEq, Repr

/-- Python `min(l)` over a nonempty list, as the left fold it is. -/
def listMin (x : ℚ) (xs : List ℚ) : ℚ := xs.foldl Min.min x

/-- Python `max(l)` over a nonempty list. -/
def listMax (x : ℚ) (xs : List ℚ) : ℚ := xs.foldl Max.max x

/-- `PingTest.calculate_ping_stats`: returns `{}` (here `none`) on an
empty list, otherwise min/max/avg, the upper median
`sorted(l)[len(l) // 2]`, the population variance and the count. -/
def calculate_ping_stats : List ℚ → Option PingStats
  | [] => none
  | x :: xs =>
    let l := x :: xs
    let sortedTimes := List.insertionSort (· ≤ ·) l
    let avg := l.sum / (l.length : ℚ)
    some
      { min := listMin x xs
        max := listMax x xs
        avg := avg
        median := sortedTimes.getD (l.length / 2) 0
        variance := ((l.map fun t => (t - avg) ^ 2).sum) / (l.length : ℚ)
        count := l.length }

/-- The ping-phase logic of `SpeedTest.run_test`: the probe
(`PingTest.run_ping_test`) yields either a nonempty list of round-trip
times (`some (x :: xs)`) or a failure (`none`; the probe returns `None`
both on connection failure and when no ping succeeds, and `run_test`
treats any falsy value the same way).  On failure the code falls back
to the demo sample list `[0] * 10` and computes statistics from it. -/
def ping_phase_stats : Option (List ℚ) → Option PingStats
  | some (x :: xs) => calculate_ping_stats (x :: xs)
  | _ => calculate_ping_stats (List.replicate 10 0)

/-! ### Stability estimator — `DownloadTest.is_speed_stable` -/

/-- Mean of a sample list (`sum(l) / len(l)`). -/
def listAvg (l : List ℚ) : ℚ := l.sum / (l.length : ℚ)

/-- Population variance of a sample list. -/
def listVariance (l : List ℚ) : ℚ :=
  ((l.map fun x => (x - listAvg l) ^ 2).sum) / (l.length : ℚ)

/-- The Python slice `l[-m:]`: the last `m` entries for `m ≥ 1`, the
whole list for `m = 0` (negative zero indexes the whole list). -/
def lastSlice (l : List ℚ) (m : ℕ) : List ℚ :=
  if m = 0 then l else l.drop (l.length - m)

/-- The decision `std_dev / mean < 0.10` of `is_speed_stable`, with
`std_dev = sqrt variance`, expressed without square roots: for a
positive mean, `sqrt v < mean/10 ↔ v < (mean/10)^2`; for a negative
mean the quotient is nonpositive, hence below `0.10` always. -/
def cvBelowTenth (varianceVal mean : ℚ) : Bool :=
  if 0 < mean then decide (varianceVal < (mean / 10) ^ 2) else true

/-- `DownloadTest.is_speed_stable(speed_samples, threshold=3.0,
min_samples=5)`.  Mirrors the source: fewer than `min_samples`
samples → `False`; take the last `min_samples` entries; `mean == 0` →
`False`; else compare the coefficient of variation of that tail
against the literal `0.10` — the `threshold` argument is never read
after the signature. -/
def is_speed_stable (speed_samples : List ℚ) (threshold : ℚ)
    (min_samples : ℕ) : Bool :=
  if speed_samples.length < min_samples then false
  else
    let recent := lastSlice speed_samples min_samples
    let mean := listAvg recent
    if mean = 0 then false
    else cvBelowTenth (listVariance recent) mean

/-! ### Download worker — `download_worker` inside `run_download_test`

Each worker iteration observes one read event at a wall-clock time `t`:
a nonempty chunk, an empty read (`b''`, premature stream end), or an
exception raised by the read.  The shared, lock-protected state is the
byte accumulator, the published speed samples, the stop flag, and the
per-connection health map. -/

inductive DlEvent where
  | chunk (size : ℕ) (t : ℚ)
  | streamEnd (t : ℚ)
  | readErr (t : ℚ)
deriving DecidableEq, Repr

/-- The wall-clock time at which the event's loop iteration runs. -/
def DlEvent.time : DlEvent → ℚ
  | .chunk _ t => t
  | .streamEnd t => t
  | .readErr t => t

/-- The `progress_data` dict of the download phase (bytes, published
speed samples, stop flag, per-connection health map). -/
structure DlShared where
  bytes : ℤ
  speedSamples : List ℚ
  stop : Bool
  connStatus : ℕ → Bool

/-- The repeated failure bookkeeping of `download_worker`: only when
`num_connections > 1` does the worker mark its own connection
unhealthy and raise the phase-wide stop flag. -/
def markUnhealthy (numConnections connId : ℕ) (sh : DlShared) : DlShared :=
  if 1 < numConnections then
    { sh with
        connStatus := fun j => if j = connId then false else sh.connStatus j
        stop := true }
  else sh

/-- Worker-private counters of `download_worker`. -/
structure DlWorker where
  bytesDl : ℕ
  lastUpdate : ℚ
  lastBytes : ℕ
deriving DecidableEq, Repr

/-- The Python slice `l[-1:]` used in
`progress_data['speed_samples'].extend(local_samples[-1:])`. -/
def lastOne (l : List ℚ) : List ℚ := l.drop (l.length - 1)

/-- The read loop of `download_worker` (lines 1421–1456): while the
stop flag is unset and the elapsed time is below `max_duration`,
process the next read.  An empty read or a read error marks the
connection unhealthy (multi-connection only) and breaks; a chunk
grows the private byte count and, every ≥ 0.1 s, flushes the byte
delta and the most recent local sample to the shared state. -/
def dlLoop (numConnections connId : ℕ) (maxDuration startT : ℚ) :
    List DlEvent → DlWorker → List ℚ → DlShared → DlWorker × List ℚ × DlShared
  | [], w, ls, sh => (w, ls, sh)
  | ev :: rest, w, ls, sh =>
    if sh.stop = true ∨ maxDuration ≤ ev.time - startT then (w, ls, sh)
    else
      match ev with
      | .streamEnd _ => (w, ls, markUnhealthy numConnections connId sh)
      | .readErr _ => (w, ls, markUnhealthy numConnections connId sh)
      | .chunk size t =>
        let bytesDl := w.bytesDl + size
        let timeDelta := t - w.lastUpdate
        if (1 : ℚ) / 10 ≤ timeDelta then
          let bytesDelta : ℤ := (bytesDl : ℤ) - (w.lastBytes : ℤ)
          let instant := ((bytesDelta : ℚ) * 8) / (timeDelta * 1000000)
          let ls' := if 0 < instant then ls ++ [instant] else ls
          let sh' := { sh with
              bytes := sh.bytes + bytesDelta
              speedSamples := sh.speedSamples ++ lastOne ls' }
          dlLoop numConnections connId maxDuration startT rest
            ⟨bytesDl, t, bytesDl⟩ ls' sh'
        else
          dlLoop numConnections connId maxDuration startT rest
            { w with bytesDl := bytesDl } ls sh

/-- How a worker's single HTTP attempt unfolds: a 200 response with a
sequence of reads, a non-success status code, or a raised exception
while connecting. -/
inductive DlConn where
  | ok (events : List DlEvent)
  | badStatus
  | connectFail
deriving Repr

/-- `download_worker(conn_id)`: returns the worker's private byte count
and the shared state it leaves behind.  A bad status code or a failed
connection yields no bytes and (multi-connection only) marks the
connection unhealthy. -/
def download_worker (numConnections connId : ℕ) (maxDuration startT : ℚ)
    (conn : DlConn) (sh : DlShared) : ℕ × DlShared :=
  match conn with
  | .badStatus => (0, markUnhealthy numConnections connId sh)
  | .connectFail => (0, markUnhealthy numConnections connId sh)
  | .ok events =>
    let r := dlLoop numConnections connId maxDuration startT events
      ⟨0, startT, 0⟩ [] sh
    (r.1.bytesDl, r.2.2)

/-- Runs the workers of a phase over the shared state (one admissible
serialization of the lock-protected interleaving), collecting each
worker's returned byte count as `future.result()` does. -/
def runDlWorkers (numConnections : ℕ) (maxDuration startT : ℚ) :
    List DlConn → ℕ → DlShared → List ℕ × DlShared
  | [], _, sh => ([], sh)
  | c :: cs, i, sh =>
    let r := download_worker numConnections i maxDuration startT c sh
    let rest := runDlWorkers numConnections maxDuration startT cs (i + 1) r.2
    (r.1 :: rest.1, rest.2)

/-- The latency block shared by both throughput phases (lines
1566–1574 and 1866–1874): statistics are computed only when
`ping_times` is truthy and differs from `[0]`. -/
def throughput_latency_stats (pingTimes : List ℚ) : Option PingStats :=
  if pingTimes = [] ∨ pingTimes = [0] then none
  else calculate_ping_stats pingTimes

/-- The result dict of a throughput phase. -/
structure PhaseOutcome where
  speed : ℚ
  bytes : ℕ
  duration : ℚ
  latency : Option PingStats
  error : Option String
deriving DecidableEq, Repr

/-- `DownloadTest.run_download_test`: an empty host short-circuits to a
zero-valued result with the `'error'` entry and touches no connection;
otherwise the workers run, `total_bytes` is the sum of the workers'
returned byte counts, `total_duration` is the wall clock minus the
0.5 s cleanup buffer, and the reported speed is
`total_bytes*8/(total_duration*1e6)` when the duration is positive and
`0` otherwise.  The success dict carries no `'error'` entry. -/
def run_download_test (host : String) (conns : List DlConn)
    (pingTimes : List ℚ) (maxDuration wallClock : ℚ) : PhaseOutcome :=
  if host = "" then
    { speed := 0, bytes := 0, duration := 0, latency := none
      error := some "No host available" }
  else
    let r := runDlWorkers conns.length maxDuration 0 conns 0
      ⟨0, [], false, fun _ => true⟩
    let totalBytes := r.1.sum
    let totalDuration := wallClock - 1 / 2
    let speed :=
      if 0 < totalDuration then
        ((totalBytes : ℚ) * 8) / (totalDuration * 1000000)
      else 0
    { speed := speed, bytes := totalBytes, duration := totalDuration
      latency := throughput_latency_stats pingTimes, error := none }

/-- The ramp-up sample filter of `run_download_test` (lines 1527–1529):
`skip_duration = 3` and
`[s for i, s in enumerate(all_speed_samples) if i >= skip_duration]`,
falling back to the unfiltered list when the filter empties it. -/
def skip_duration : ℕ := 3

/-- The enumerate-and-filter expression itself. -/
def filter_ramp_up (allSamples : List ℚ) : List ℚ :=
  let filtered :=
    (allSamples.enum.filter fun p => decide (skip_duration ≤ p.1)).map Prod.snd
  if filtered.isEmpty then allSamples else filtered

/-! ### Upload tracker — `ProgressTracker.read` inside `run_upload_test` -/

/-- `progress_data['measurement_start']`. -/
def measurement_start : ℚ := 3

/-- `progress_data['measurement_end']`. -/
def measurement_end : ℚ := 12

/-- `ProgressTracker.chunk_size` (10 KB). -/
def upload_chunk_size : ℕ := 10240

/-- Tracker-private counters of `ProgressTracker`. -/
structure UpTracker where
  bytesSent : ℕ
  lastUpdate : ℚ
  lastBytes : ℕ
deriving DecidableEq, Repr

/-- The shared `progress_data` of the upload phase (the health map is
never written by the tracker, so it is omitted here). -/
structure UpShared where
  bytes : ℤ
  speedSamples : List ℚ
  stop : Bool
deriving DecidableEq, Repr

/-- `ProgressTracker.read` observed at wall-clock time `t`: at or past
the 12 s measurement end, or once the stop flag is set, it yields no
data (`b''`, modelled `none`); otherwise it generates a 10 KB chunk
and, every ≥ 0.1 s, flushes the byte delta into the shared accumulator
— but only when the elapsed time lies inside `[3, 12)`. -/
def tracker_read (baseTime t : ℚ) (st : UpTracker) (sh : UpShared) :
    Option ℕ × UpTracker × UpShared :=
  let elapsed := t - baseTime
  if measurement_end ≤ elapsed then (none, st, sh)
  else if sh.stop = true then (none, st, sh)
  else
    let bytesSent := st.bytesSent + upload_chunk_size
    let timeDelta := t - st.lastUpdate
    if (1 : ℚ) / 10 ≤ timeDelta then
      let bytesDelta : ℤ := (bytesSent : ℤ) - (st.lastBytes : ℤ)
      let instant := ((bytesDelta : ℚ) * 8) / (timeDelta * 1000000)
      let sh' :=
        if measurement_start ≤ elapsed ∧ elapsed < measurement_end then
          { sh with
              bytes := sh.bytes + bytesDelta
              speedSamples :=
                if 0 < instant then sh.speedSamples ++ [instant]
                else sh.speedSamples }
        else sh
      (some upload_chunk_size, ⟨bytesSent, t, bytesSent⟩, sh')
    else
      (some upload_chunk_size, { st with bytesSent := bytesSent }, sh)

/-- Feeds the tracker a schedule of read times, as the HTTP layer of a
worker does while streaming the request body. -/
def tracker_run (baseTime : ℚ) (times : List ℚ) (st : UpTracker)
    (sh : UpShared) : UpTracker × UpShared :=
  times.foldl
    (fun p t =>
      let r := tracker_read baseTime t p.1 p.2
      (r.2.1, r.2.2))
    (st, sh)

/-- Read schedule of a synthetic worker producing exactly 1 MB/s for
15 s: one 10240-byte chunk every 10240/10^6 = 32/3125 s, 1464 reads,
the last at ≈ 14.991 s. -/
def syntheticTimes : List ℚ :=
  (List.range 1464).map fun k : ℕ => ((k : ℚ) + 1) * (32 / 3125)

/-- The bytes the shared accumulator holds after the synthetic run. -/
def syntheticMeasured : ℤ :=
  (tracker_run 0 syntheticTimes ⟨0, 0, 0⟩ ⟨0, [], false⟩).2.bytes

/-- `DownloadTest.run_upload_test`: the no-host guard (lines
1649–1656), the fixed 9 s measurement window, and the aggregate speed
formula over the measured bytes.  The workers' tracker activity is
summarized by the final shared accumulator value `measuredBytes`,
which the monitor reads out as `total_bytes`. -/
def run_upload_test (host : String) (measuredBytes : ℕ)
    (pingTimes : List ℚ) : PhaseOutcome :=
  if host = "" then
    { speed := 0, bytes := 0, duration := 0, latency := none
      error := some "No host available" }
  else
    let totalDuration : ℚ := measurement_end - measurement_start
    let speed :=
      if 0 < totalDuration then
        ((measuredBytes : ℚ) * 8) / (totalDuration * 1000000)
      else 0
    { speed := speed, bytes := measuredBytes, duration := totalDuration
      latency := throughput_latency_stats pingTimes, error := none }

/-! ### Evaluation of the synthetic upload run, in 100-read segments -/

/-- A contiguous segment of the synthetic read schedule. -/
def synSeg (a n : ℕ) : List ℚ :=
  (List.range' a n).map fun k : ℕ => ((k : ℚ) + 1) * (32 / 3125)

theorem synSeg_split (a m n : ℕ) :
    synSeg a (m + n) = synSeg a m ++ synSeg (a + m) n := by
  unfold synSeg
  rw [Nat.add_comm m n, ← List.range'_append_1, List.map_append]

theorem tracker_run_append (base : ℚ) (l1 l2 : List ℚ) (st : UpTracker)
    (sh : UpShared) :
    tracker_run base (l1 ++ l2) st sh =
      tracker_run base l2 (tracker_run base l1 st sh).1
        (tracker_run base l1 st sh).2 := by
  simp [tracker_run, List.foldl_append]

theorem syntheticTimes_eq : syntheticTimes = synSeg 0 1464 := by
  simp [syntheticTimes, synSeg, List.range_eq_range']

set_option maxRecDepth 20000 in
theorem synRun100 : tracker_run 0 (synSeg 0 100) ⟨0, 0, 0⟩ ⟨0, [], false⟩ =
    (⟨1024000, 128 / 125, 1024000⟩, ⟨0, [], false⟩) := by
  with_unfolding_all rfl

set_option maxRecDepth 20000 in
theorem synRun200 : tracker_run 0 (synSeg 0 200) ⟨0, 0, 0⟩ ⟨0, [], false⟩ =
    (⟨2048000, 256 / 125, 2048000⟩, ⟨0, [], false⟩) := by
  rw [show (200 : ℕ) = 100 + 100 from by norm_num, synSeg_split,
    tracker_run_append, synRun100]
  with_unfolding_all rfl

set_option maxRecDepth 20000 in
theorem synRun300 : tracker_run 0 (synSeg 0 300) ⟨0, 0, 0⟩ ⟨0, [], false⟩ =
    (⟨3072000, 384 / 125, 3072000⟩, ⟨102400, List.replicate 1 8, false⟩) := by
  rw [show (300 : ℕ) = 200 + 100 from by norm_num, synSeg_split,
    tracker_run_append, synRun200]
  with_unfolding_all rfl

set_option maxRecDepth 20000 in
theorem synRun400 : tracker_run 0 (synSeg 0 400) ⟨0, 0, 0⟩ ⟨0, [], false⟩ =
    (⟨4096000, 512 / 125, 4096000⟩, ⟨1126400, List.replicate 11 8, false⟩) := by
  rw [show (400 : ℕ) = 300 + 100 from by norm_num, synSeg_split,
    tracker_run_append, synRun300]
  with_unfolding_all rfl

set_option maxRecDepth 20000 in
theorem synRun500 : tracker_run 0 (synSeg 0 500) ⟨0, 0, 0⟩ ⟨0, [], false⟩ =
    (⟨5120000, 128 / 25, 5120000⟩, ⟨2150400, List.replicate 21 8, false⟩) := by
  rw [show (500 : ℕ) = 400 + 100 from by norm_num, synSeg_split,
    tracker_run_append, synRun400]
  with_unfolding_all rfl

set_option maxRecDepth 20000 in
theorem synRun600 : tracker_run 0 (synSeg 0 600) ⟨0, 0, 0⟩ ⟨0, [], false⟩ =
    (⟨6144000, 768 / 125, 6144000⟩, ⟨3174400, List.replicate 31 8, false⟩) := by
  rw [show (600 : ℕ) = 500 + 100 from by norm_num, synSeg_split,
    tracker_run_append, synRun500]
  with_unfolding_all rfl

set_option maxRecDepth 20000 in
theorem synRun700 : tracker_run 0 (synSeg 0 700) ⟨0, 0, 0⟩ ⟨0, [], false⟩ =
    (⟨7168000, 896 / 125, 7168000⟩, ⟨4198400, List.replicate 41 8, false⟩) := by
  rw [show (700 : ℕ) = 600 + 100 from by norm_num, synSeg_split,
    tracker_run_append, synRun600]
  with_unfolding_all rfl

set_option maxRecDepth 20000 in
theorem synRun800 : tracker_run 0 (synSeg 0 800) ⟨0, 0, 0⟩ ⟨0, [], false⟩ =
    (⟨8192000, 1024 / 125, 8192000⟩, ⟨5222400, List.replicate 51 8, false⟩) := by
  rw [show (800 : ℕ) = 700 + 100 from by norm_num, synSeg_split,
    tracker_run_append, synRun700]
  with_unfolding_all rfl

set_option maxRecDepth 20000 in
theorem synRun900 : tracker_run 0 (synSeg 0 900) ⟨0, 0, 0⟩ ⟨0, [], false⟩ =
    (⟨9216000, 1152 / 125, 9216000⟩, ⟨6246400, List.replicate 61 8, false⟩) := by
  rw [show (900 : ℕ) = 800 + 100 from by norm_num, synSeg_split,
    tracker_run_append, synRun800]
  with_unfolding_all rfl

set_option maxRecDepth 20000 in
theorem synRun1000 : tracker_run 0 (synSeg 0 1000) ⟨0, 0, 0⟩ ⟨0, [], false⟩ =
    (⟨10240000, 256 / 25, 10240000⟩, ⟨7270400, List.replicate 71 8, false⟩) := by
  rw [show (1000 : ℕ) = 900 + 100 from by norm_num, synSeg_split,
    tracker_run_append, synRun900]
  with_unfolding_all rfl

set_option maxRecDepth 20000 in
theorem synRun1100 : tracker_run 0 (synSeg 0 1100) ⟨0, 0, 0⟩ ⟨0, [], false⟩ =
    (⟨11264000, 1408 / 125, 11264000⟩, ⟨8294400, List.replicate 81 8, false⟩) := by
  rw [show (1100 : ℕ) = 1000 + 100 from by norm_num, synSeg_split,
    tracker_run_append, synRun1000]
  with_unfolding_all rfl

set_option maxRecDepth 20000 in
theorem synRun1200 : tracker_run 0 (synSeg 0 1200) ⟨0, 0, 0⟩ ⟨0, [], false⟩ =
    (⟨11991040, 7488 / 625, 11980800⟩, ⟨9011200, List.replicate 88 8, false⟩) := by
  rw [show (1200 : ℕ) = 1100 + 100 from by norm_num, synSeg_split,
    tracker_run_append, synRun1100]
  with_unfolding_all rfl

set_option maxRecDepth 60000 in
theorem syntheticMeasured_eq : syntheticMeasured = 9011200 := by
  rw [syntheticMeasured, syntheticTimes_eq,
    show (1464 : ℕ) = 1200 + 264 from by norm_num, synSeg_split,
    tracker_run_append, synRun1200]
  with_unfolding_all rfl

/-- Claim C2: in the upload phase, the shared accumulator is updated
only by reads whose elapsed time lies inside the measurement window
`[3 s, 12 s)` — reads before 3 s and at/after 12 s leave the byte count
unchanged, and at/after 12 s the chunk supplier stops yielding data
altogether; a synthetic worker producing exactly 1 MB/s for 15 s
accumulates 9011200 bytes, within tolerance of `9 × 1_000_000` and far
from `15 × 1_000_000`. -/
theorem upload_window_gating :
    (∀ baseTime t st sh, measurement_end ≤ t - baseTime →
        tracker_read baseTime t st sh = (none, st, sh)) ∧
    (∀ baseTime t st sh, t - baseTime < measurement_start →
        ((tracker_read baseTime t st sh).2.2).bytes = sh.bytes) ∧
    syntheticMeasured = 9011200 ∧
    (8900000 : ℤ) ≤ syntheticMeasured ∧ syntheticMeasured ≤ 9100000 ∧
    syntheticMeasured ≠ 15000000 := by
  refine ⟨?_, ?_, syntheticMeasured_eq, ?_, ?_, ?_⟩
  · intro baseTime t st sh h
    simp only [tracker_read]
    rw [if_pos h]
  · intro baseTime t st sh h
    have hw : ¬(measurement_start ≤ t - baseTime ∧ t - baseTime < measurement_end) :=
      fun hc => absurd hc.1 (not_le.mpr h)
    simp only [tracker_read, if_neg hw]
    split_ifs <;> rfl
  · rw [syntheticMeasured_eq]; norm_num
  · rw [syntheticMeasured_eq]; norm_num
  · rw [syntheticMeasured_eq]; norm_num

/-- Witness for `upload_window_gating`: a read at 13 s yields no data
and a read at 2 s leaves the accumulator untouched. -/
theorem upload_window_gating_witness :
    tracker_read 0 13 ⟨0, 0, 0⟩ ⟨0, [], false⟩ =
      (none, ⟨0, 0, 0⟩, ⟨0, [], false⟩) ∧
    ((tracker_read 0 2 ⟨0, 0, 0⟩ ⟨0, [], false⟩).2.2).bytes = 0 :=
  ⟨upload_window_gating.1 0 13 ⟨0, 0, 0⟩ ⟨0, [], false⟩
      (by simp only [measurement_end]; norm_num),
   upload_window_gating.2.1 0 2 ⟨0, 0, 0⟩ ⟨0, [], false⟩
      (by simp only [measurement_start]; norm_num)⟩

/-! ### Shared-state invariants of the worker loops -/

theorem markUnhealthy_bytes (nc id : ℕ) (sh : DlShared) :
    (markUnhealthy nc id sh).bytes = sh.bytes := by
  unfold markUnhealthy; split_ifs <;> rfl

theorem dlLoop_bytes_mono (nc id : ℕ) (maxDur startT : ℚ) (evs : List DlEvent) :
    ∀ (w : DlWorker) (ls : List ℚ) (sh : DlShared), w.lastBytes ≤ w.bytesDl →
      sh.bytes ≤ (dlLoop nc id maxDur startT evs w ls sh).2.2.bytes := by
  induction evs with
  | nil => intro w ls sh _; exact le_refl _
  | cons ev rest ih =>
    intro w ls sh h
    rw [dlLoop.eq_def]
    dsimp only
    split_ifs with h1
    · exact le_refl _
    · cases ev with
      | streamEnd t => rw [markUnhealthy_bytes]
      | readErr t => rw [markUnhealthy_bytes]
      | chunk size t =>
        dsimp only
        split_ifs with h2 h3
        · refine le_trans ?_ (ih _ _ _ (le_refl _))
          have hd : (w.lastBytes : ℤ) ≤ ((w.bytesDl + size : ℕ) : ℤ) := by
            exact_mod_cast le_trans h (Nat.le_add_right _ _)
          dsimp only
          omega
        · refine le_trans ?_ (ih _ _ _ (le_refl _))
          have hd : (w.lastBytes : ℤ) ≤ ((w.bytesDl + size : ℕ) : ℤ) := by
            exact_mod_cast le_trans h (Nat.le_add_right _ _)
          dsimp only
          omega
        · refine ih ⟨w.bytesDl + size, w.lastUpdate, w.lastBytes⟩ ls sh ?_
          show w.lastBytes ≤ w.bytesDl + size
          omega

theorem markUnhealthy_status_false (nc id : ℕ) (sh : DlShared) (j : ℕ)
    (h : sh.connStatus j = false) :
    (markUnhealthy nc id sh).connStatus j = false := by
  unfold markUnhealthy
  split_ifs with h1
  · by_cases hj : j = id <;> simp [hj, h]
  · exact h

theorem dlLoop_status_mono (nc id : ℕ) (maxDur startT : ℚ) (evs : List DlEvent) :
    ∀ (w : DlWorker) (ls : List ℚ) (sh : DlShared) (j : ℕ),
      sh.connStatus j = false →
      (dlLoop nc id maxDur startT evs w ls sh).2.2.connStatus j = false := by
  induction evs with
  | nil => intro w ls sh j h; exact h
  | cons ev rest ih =>
    intro w ls sh j h
    rw [dlLoop.eq_def]
    dsimp only
    split_ifs with h1
    · exact h
    · cases ev with
      | streamEnd t => exact markUnhealthy_status_false nc id sh j h
      | readErr t => exact markUnhealthy_status_false nc id sh j h
      | chunk size t =>
        dsimp only
        split_ifs with h2 h3
        · exact ih _ _ _ _ h
        · exact ih _ _ _ _ h
        · exact ih _ _ _ _ h

theorem tracker_read_step_mono (baseTime t : ℚ) (st : UpTracker) (sh : UpShared)
    (h : st.lastBytes ≤ st.bytesSent) :
    sh.bytes ≤ ((tracker_read baseTime t st sh).2.2).bytes ∧
    ((tracker_read baseTime t st sh).2.1).lastBytes ≤
      ((tracker_read baseTime t st sh).2.1).bytesSent := by
  simp only [tracker_read]
  split_ifs with h1 h2 h3 h4 h5 <;> dsimp only <;> refine ⟨?_, ?_⟩ <;> omega

theorem tracker_run_bytes_mono (baseTime : ℚ) (times : List ℚ) :
    ∀ (st : UpTracker) (sh : UpShared), st.lastBytes ≤ st.bytesSent →
      sh.bytes ≤ (tracker_run baseTime times st sh).2.bytes := by
  induction times with
  | nil => intro st sh _; exact le_refl _
  | cons t ts ih =>
    intro st sh h
    have hstep := tracker_read_step_mono baseTime t st sh h
    calc sh.bytes ≤ ((tracker_read baseTime t st sh).2.2).bytes := hstep.1
      _ ≤ _ := by
        rw [tracker_run, List.foldl_cons]
        exact ih _ _ hstep.2

/-- Claim C9: within a phase, every flush into the shared byte
accumulator is non-negative — the byte count is monotonically
non-decreasing along the download worker loop, a single upload tracker
read, and a whole upload read schedule — and a connection-health flag
only ever changes from healthy (`true`) to unhealthy (`false`), never
back. -/
theorem accumulator_monotonic :
    (∀ (nc id : ℕ) (maxDur startT : ℚ) (evs : List DlEvent) (w : DlWorker)
        (ls : List ℚ) (sh : DlShared), w.lastBytes ≤ w.bytesDl →
        sh.bytes ≤ (dlLoop nc id maxDur startT evs w ls sh).2.2.bytes) ∧
    (∀ (nc id : ℕ) (maxDur startT : ℚ) (evs : List DlEvent) (w : DlWorker)
        (ls : List ℚ) (sh : DlShared) (j : ℕ),
        (dlLoop nc id maxDur startT evs w ls sh).2.2.connStatus j ≠
          sh.connStatus j →
        sh.connStatus j = true ∧
        (dlLoop nc id maxDur startT evs w ls sh).2.2.connStatus j = false) ∧
    (∀ (baseTime t : ℚ) (st : UpTracker) (sh : UpShared),
        st.lastBytes ≤ st.bytesSent →
        sh.bytes ≤ ((tracker_read baseTime t st sh).2.2).bytes) ∧
    (∀ (baseTime : ℚ) (times : List ℚ) (st : UpTracker) (sh : UpShared),
        st.lastBytes ≤ st.bytesSent →
        sh.bytes ≤ (tracker_run baseTime times st sh).2.bytes) := by
  refine ⟨dlLoop_bytes_mono, ?_,
    fun b t st sh h => (tracker_read_step_mono b t st sh h).1,
    tracker_run_bytes_mono⟩
  intro nc id maxDur startT evs w ls sh j hne
  cases hs : sh.connStatus j with
  | false =>
    rw [hs] at hne
    exact absurd (dlLoop_status_mono nc id maxDur startT evs w ls sh j hs) hne
  | true =>
    refine ⟨rfl, ?_⟩
    cases hr : (dlLoop nc id maxDur startT evs w ls sh).2.2.connStatus j with
    | false => rfl
    | true => rw [hs, hr] at hne; exact absurd rfl hne

/-- Witness for `accumulator_monotonic`: concrete download and upload
steps starting from fresh state. -/
theorem accumulator_monotonic_witness :
    (0 : ℤ) ≤ (dlLoop 2 0 30 0 [DlEvent.chunk 5 1] ⟨0, 0, 0⟩ []
        ⟨0, [], false, fun _ => true⟩).2.2.bytes ∧
    (0 : ℤ) ≤ ((tracker_read 0 5 ⟨0, 0, 0⟩ ⟨0, [], false⟩).2.2).bytes ∧
    (0 : ℤ) ≤ (tracker_run 0 [5, 6] ⟨0, 0, 0⟩ ⟨0, [], false⟩).2.bytes :=
  ⟨accumulator_monotonic.1 2 0 30 0 [DlEvent.chunk 5 1] ⟨0, 0, 0⟩ []
      ⟨0, [], false, fun _ => true⟩ (le_refl 0),
   accumulator_monotonic.2.2.1 0 5 ⟨0, 0, 0⟩ ⟨0, [], false⟩ (le_refl 0),
   accumulator_monotonic.2.2.2 0 [5, 6] ⟨0, 0, 0⟩ ⟨0, [], false⟩ (le_refl 0)⟩


/-- Claim C6: with more than one connection, a premature stream end, a
read error, or a non-success status marks the worker's own connection
unhealthy and sets the phase-wide stop flag (`markUnhealthy` with
`1 < numConnections`); with exactly one connection the same events end
the worker without touching health or stop; a set stop flag halts
every worker loop immediately, so no further bytes are collected. -/
theorem connection_health_escalation :
    (∀ (nc id : ℕ) (maxDur startT t : ℚ) (rest : List DlEvent) (w : DlWorker)
        (ls : List ℚ) (sh : DlShared), sh.stop = false → t - startT < maxDur →
        (dlLoop nc id maxDur startT (DlEvent.streamEnd t :: rest) w ls sh).2.2 =
          markUnhealthy nc id sh ∧
        (dlLoop nc id maxDur startT (DlEvent.readErr t :: rest) w ls sh).2.2 =
          markUnhealthy nc id sh) ∧
    (∀ (nc id : ℕ) (maxDur startT : ℚ) (sh : DlShared),
        (download_worker nc id maxDur startT DlConn.badStatus sh).2 =
          markUnhealthy nc id sh ∧
        (download_worker nc id maxDur startT DlConn.connectFail sh).2 =
          markUnhealthy nc id sh) ∧
    (∀ (nc id : ℕ) (sh : DlShared), 1 < nc →
        (markUnhealthy nc id sh).connStatus id = false ∧
        (markUnhealthy nc id sh).stop = true) ∧
    (∀ (id : ℕ) (sh : DlShared), markUnhealthy 1 id sh = sh) ∧
    (∀ (nc id : ℕ) (maxDur startT : ℚ) (evs : List DlEvent) (w : DlWorker)
        (ls : List ℚ) (sh : DlShared), sh.stop = true →
        dlLoop nc id maxDur startT evs w ls sh = (w, ls, sh)) := by
  refine ⟨?_, fun nc id maxDur startT sh => ⟨rfl, rfl⟩, ?_, ?_, ?_⟩
  · intro nc id maxDur startT t rest w ls sh hstop hlt
    have hcond : ¬((sh.stop = true ∨ maxDur ≤ DlEvent.time (DlEvent.streamEnd t) - startT)) := by
      rintro (hc | hc)
      · rw [hstop] at hc; exact Bool.false_ne_true hc
      · exact absurd hc (not_le.mpr hlt)
    have hcond' : ¬((sh.stop = true ∨ maxDur ≤ DlEvent.time (DlEvent.readErr t) - startT)) := by
      rintro (hc | hc)
      · rw [hstop] at hc; exact Bool.false_ne_true hc
      · exact absurd hc (not_le.mpr hlt)
    constructor
    · rw [dlLoop.eq_def]; dsimp only; rw [if_neg hcond]
    · rw [dlLoop.eq_def]; dsimp only; rw [if_neg hcond']
  · intro nc id sh h
    unfold markUnhealthy
    rw [if_pos h]
    exact ⟨by simp, rfl⟩
  · intro id sh
    unfold markUnhealthy
    rw [if_neg (lt_irrefl 1)]
  · intro nc id maxDur startT evs w ls sh h
    cases evs with
    | nil => rfl
    | cons ev rest => rw [dlLoop.eq_def]; dsimp only; rw [if_pos (Or.inl h)]

/-- Witness for `connection_health_escalation` at a two-connection
phase observing a stream end at 1 s. -/
theorem connection_health_escalation_witness :
    (dlLoop 2 0 30 0 [DlEvent.streamEnd 1] ⟨0, 0, 0⟩ []
        ⟨0, [], false, fun _ => true⟩).2.2 =
      markUnhealthy 2 0 ⟨0, [], false, fun _ => true⟩ ∧
    (markUnhealthy 2 0 ⟨0, [], false, fun _ => true⟩).connStatus 0 = false ∧
    (markUnhealthy 2 0 ⟨0, [], false, fun _ => true⟩).stop = true ∧
    markUnhealthy 1 0 ⟨0, [], false, fun _ => true⟩ =
      ⟨0, [], false, fun _ => true⟩ ∧
    dlLoop 2 0 30 0 [DlEvent.chunk 5 1] ⟨0, 0, 0⟩ [] ⟨0, [], true, fun _ => true⟩ =
      (⟨0, 0, 0⟩, [], ⟨0, [], true, fun _ => true⟩) :=
  ⟨(connection_health_escalation.1 2 0 30 0 1 [] ⟨0, 0, 0⟩ []
      ⟨0, [], false, fun _ => true⟩ rfl (by norm_num)).1,
   (connection_health_escalation.2.2.1 2 0 ⟨0, [], false, fun _ => true⟩
      (by norm_num)).1,
   (connection_health_escalation.2.2.1 2 0 ⟨0, [], false, fun _ => true⟩
      (by norm_num)).2,
   connection_health_escalation.2.2.2.1 0 ⟨0, [], false, fun _ => true⟩,
   connection_health_escalation.2.2.2.2 2 0 30 0 [DlEvent.chunk 5 1] ⟨0, 0, 0⟩ []
      ⟨0, [], true, fun _ => true⟩ rfl⟩

/-- Claim C1: for a completed download phase the reported speed equals
`totalBytes*8/(effectiveDuration*1e6)` with `effectiveDuration` the
wall clock minus the 0.5 s cleanup buffer, is `0` when that duration
is not positive, and is a function of the aggregate byte total alone —
two runs with the same byte total report the same speed regardless of
their per-connection events or samples. -/
theorem download_speed_aggregate :
    ∀ (host : String) (conns : List DlConn) (pingTimes : List ℚ)
      (maxDur wallClock : ℚ), host ≠ "" →
    ((run_download_test host conns pingTimes maxDur wallClock).speed =
      if 0 < wallClock - 1 / 2 then
        (((run_download_test host conns pingTimes maxDur wallClock).bytes : ℚ) * 8) /
          ((wallClock - 1 / 2) * 1000000)
      else 0) ∧
    (wallClock - 1 / 2 ≤ 0 →
      (run_download_test host conns pingTimes maxDur wallClock).speed = 0) ∧
    (∀ (conns' : List DlConn) (pingTimes' : List ℚ),
      (run_download_test host conns' pingTimes' maxDur wallClock).bytes =
        (run_download_test host conns pingTimes maxDur wallClock).bytes →
      (run_download_test host conns' pingTimes' maxDur wallClock).speed =
        (run_download_test host conns pingTimes maxDur wallClock).speed) := by
  intro host conns pingTimes maxDur wallClock h
  refine ⟨?_, ?_, ?_⟩
  · simp only [run_download_test, if_neg h]
  · intro hd
    simp only [run_download_test, if_neg h, if_neg (not_lt.mpr hd)]
  · intro conns' pingTimes' hb
    simp only [run_download_test, if_neg h] at hb ⊢
    rw [hb]

/-- Witness for `download_speed_aggregate` on a host with no workers
and a 10 s wall clock. -/
theorem download_speed_aggregate_witness :
    ("h" : String) ≠ "" ∧
    (run_download_test "h" [] [] 30 10).speed =
      (if 0 < (10 : ℚ) - 1 / 2 then
        (((run_download_test "h" [] [] 30 10).bytes : ℚ) * 8) /
          (((10 : ℚ) - 1 / 2) * 1000000)
      else 0) :=
  ⟨by decide, (download_speed_aggregate "h" [] [] 30 10 (by decide)).1⟩

/-- Counterexample to claim C7 as stated: a download phase whose only
worker fails to establish its connection returns a zero-valued result
whose `'error'` entry is absent — the explicit failure marker exists
only in the no-host case. -/
theorem connect_failure_unmarked :
    (run_download_test "example.com" [DlConn.connectFail] [] 30 10).error = none ∧
    (run_download_test "example.com" [DlConn.connectFail] [] 30 10).speed = 0 ∧
    (run_download_test "example.com" [DlConn.connectFail] [] 30 10).bytes = 0 := by
  refine ⟨?_, ?_, ?_⟩ <;> with_unfolding_all rfl

/-- Claim C7 (amended): a Server without a usable host makes both
throughput phases return immediately a zero-valued result carrying the
`'error'` marker, independent of any connection activity (no network
attempt); a phase whose primary connection cannot be established also
returns a zero-valued result without raising, but carries no failure
marker — the success dict never contains an `'error'` entry. -/
theorem failure_marker_policy :
    (∀ (conns : List DlConn) (pingTimes : List ℚ) (maxDur wallClock : ℚ),
        run_download_test "" conns pingTimes maxDur wallClock =
          ⟨0, 0, 0, none, some "No host available"⟩) ∧
    (∀ (measuredBytes : ℕ) (pingTimes : List ℚ),
        run_upload_test "" measuredBytes pingTimes =
          ⟨0, 0, 0, none, some "No host available"⟩) ∧
    (∀ (host : String) (conns : List DlConn) (pingTimes : List ℚ)
        (maxDur wallClock : ℚ), host ≠ "" →
        (run_download_test host conns pingTimes maxDur wallClock).error = none) ∧
    (∀ (host : String) (pingTimes : List ℚ) (maxDur wallClock : ℚ), host ≠ "" →
        (run_download_test host [DlConn.connectFail] pingTimes maxDur wallClock).bytes = 0 ∧
        (run_download_test host [DlConn.connectFail] pingTimes maxDur wallClock).speed = 0) := by
  refine ⟨fun conns pingTimes maxDur wallClock => ?_,
    fun measuredBytes pingTimes => ?_, fun host conns pingTimes maxDur wallClock h => ?_,
    fun host pingTimes maxDur wallClock h => ⟨?_, ?_⟩⟩
  · simp [run_download_test]
  · simp [run_upload_test]
  · simp only [run_download_test, if_neg h]
  · simp only [run_download_test, if_neg h]
    rfl
  · simp only [run_download_test, if_neg h]
    split_ifs <;> simp [runDlWorkers, download_worker]

/-- Witness for `failure_marker_policy` at the host `"h"`. -/
theorem failure_marker_policy_witness :
    ("h" : String) ≠ "" ∧
    (run_download_test "h" [] [] 30 10).error = none ∧
    (run_download_test "h" [DlConn.connectFail] [] 30 10).bytes = 0 ∧
    (run_download_test "h" [DlConn.connectFail] [] 30 10).speed = 0 :=
  ⟨by decide, failure_marker_policy.2.2.1 "h" [] [] 30 10 (by decide),
   (failure_marker_policy.2.2.2 "h" [] 30 10 (by decide)).1,
   (failure_marker_policy.2.2.2 "h" [] 30 10 (by decide)).2⟩

/-- Claim C3, evaluated at the failing input: for 60 samples (≈ 6 s
worth at the ~0.1 s cadence) the filter drops exactly the first
`skip_duration = 3` samples — a fixed count, ≈ 0.3 s worth — keeping
57 of them, including the sample with value 3 collected ≈ 0.4 s into
the phase, well inside the 3 s ramp-up window the code's own comment
says it removes. -/
theorem ramp_up_discard_is_by_count :
    filter_ramp_up ((List.range 60).map fun i : ℕ => (i : ℚ)) =
      (List.range 57).map (fun i : ℕ => ((i : ℚ) + 3)) ∧
    (3 : ℚ) ∈ filter_ramp_up ((List.range 60).map fun i : ℕ => (i : ℚ)) ∧
    (filter_ramp_up ((List.range 60).map fun i : ℕ => (i : ℚ))).length = 57 := by
  have h1 : filter_ramp_up ((List.range 60).map fun i : ℕ => (i : ℚ)) =
      (List.range 57).map (fun i : ℕ => ((i : ℚ) + 3)) := by
    with_unfolding_all rfl
  refine ⟨h1, ?_, ?_⟩
  · rw [h1]
    exact List.mem_map.mpr ⟨0, List.mem_range.mpr (by norm_num), by norm_num⟩
  · rw [h1]
    simp

/-- Counterexample to claim C4 as stated: with zero latency samples
obtained (`none` from the probe), the ping phase's statistics are not
absent — they are computed from the demo fallback and report
`count = 10`. -/
theorem ping_failure_counterexample :
    ping_phase_stats none ≠ none ∧
    (ping_phase_stats none).map PingStats.count = some 10 := by
  have h : ping_phase_stats none = some ⟨0, 0, 0, 0, 0, 10⟩ := by
    with_unfolding_all rfl
  rw [h]
  exact ⟨Option.some_ne_none _, rfl⟩

/-- Claim C4 (amended): when the ping probe yields no samples (failure
or an empty list), `run_test` substitutes the demo sample list
`[0] * 10` and reports its statistics (all values 0, `count = 10`)
instead of an absent result; a nonempty probe result is passed to
`calculate_ping_stats` unchanged. -/
theorem ping_demo_fallback :
    ping_phase_stats none = some ⟨0, 0, 0, 0, 0, 10⟩ ∧
    ping_phase_stats (some []) = some ⟨0, 0, 0, 0, 0, 10⟩ ∧
    (∀ (x : ℚ) (xs : List ℚ),
      ping_phase_stats (some (x :: xs)) = calculate_ping_stats (x :: xs)) :=
  ⟨by with_unfolding_all rfl, by with_unfolding_all rfl, fun x xs => rfl⟩

/-- Claim C10: the stability check returns the same boolean for any
two values of its `threshold` argument — the parameter is never read,
the comparison being against the fixed constant `0.10`. -/
theorem stability_threshold_ignored :
    ∀ (samples : List ℚ) (t1 t2 : ℚ) (m : ℕ),
      is_speed_stable samples t1 m = is_speed_stable samples t2 m :=
  fun _ _ _ _ => rfl

/-- Counterexample to claim C5 as stated: on the samples
`[10, 10, 10, 10, 11]` with `threshold = 1/100` and `minSamples = 5`,
`is_speed_stable` returns `true` although the coefficient of variation
of the tail window (`(2/5)/(51/5) = 2/51`) is not below the supplied
threshold. -/
theorem stability_threshold_counterexample :
    is_speed_stable [10, 10, 10, 10, 11] (1 / 100) 5 = true ∧
    ¬(Real.sqrt ((listVariance (lastSlice [10, 10, 10, 10, 11] 5) : ℚ) : ℝ) /
        ((listAvg (lastSlice [10, 10, 10, 10, 11] 5) : ℚ) : ℝ) < 1 / 100) := by
  have hv : listVariance (lastSlice [10, 10, 10, 10, 11] 5) = 4 / 25 := by
    with_unfolding_all rfl
  have hm : listAvg (lastSlice [10, 10, 10, 10, 11] 5) = 51 / 5 := by
    with_unfolding_all rfl
  constructor
  · with_unfolding_all rfl
  · rw [hv, hm]
    have hs : Real.sqrt (((4 : ℚ) / 25 : ℚ) : ℝ) = 2 / 5 := by
      rw [show (((4 : ℚ) / 25 : ℚ) : ℝ) = (2 / 5 : ℝ) ^ 2 by push_cast; ring]
      exact Real.sqrt_sq (by norm_num)
    rw [hs]
    push_cast
    norm_num

/-- Claim C5 (amended): for `minSamples ≥ 1` (the Python code raises
`ZeroDivisionError` on an empty list with `minSamples = 0`),
`is_speed_stable` returns `true` iff at least `minSamples` samples are
supplied, the mean of the most recent `minSamples` entries is nonzero,
and the population standard deviation divided by the mean is strictly
below the fixed constant `0.10` — the `threshold` argument plays no
role. -/
theorem stability_uses_fixed_tenth :
    ∀ (samples : List ℚ) (threshold : ℚ) (m : ℕ), 1 ≤ m →
      (is_speed_stable samples threshold m = true ↔
        (m ≤ samples.length ∧
         listAvg (lastSlice samples m) ≠ 0 ∧
         Real.sqrt ((listVariance (lastSlice samples m) : ℚ) : ℝ) /
           ((listAvg (lastSlice samples m) : ℚ) : ℝ) < 1 / 10)) := by
  intro samples θ m hm
  simp only [is_speed_stable, cvBelowTenth]
  split_ifs with h1 h2 h3
  · simp only [Bool.false_eq_true, false_iff]
    intro hc
    exact absurd hc.1 (not_le.mpr h1)
  · simp only [Bool.false_eq_true, false_iff]
    intro hc
    exact hc.2.1 h2
  · -- 0 < mean
    have hlen : m ≤ samples.length := not_lt.mp h1
    have hmean : (0 : ℝ) < ((listAvg (lastSlice samples m) : ℚ) : ℝ) := by
      exact_mod_cast h3
    have h10 : (0 : ℝ) < ((listAvg (lastSlice samples m) : ℚ) : ℝ) / 10 := by
      linarith
    have hiff :
        Real.sqrt ((listVariance (lastSlice samples m) : ℚ) : ℝ) /
            ((listAvg (lastSlice samples m) : ℚ) : ℝ) < 1 / 10 ↔
          listVariance (lastSlice samples m) <
            (listAvg (lastSlice samples m) / 10) ^ 2 := by
      rw [div_lt_iff₀ hmean,
        show (1 : ℝ) / 10 * ((listAvg (lastSlice samples m) : ℚ) : ℝ) =
          ((listAvg (lastSlice samples m) : ℚ) : ℝ) / 10 by ring,
        Real.sqrt_lt' h10,
        show (((listAvg (lastSlice samples m) : ℚ) : ℝ) / 10) ^ 2 =
          (((listAvg (lastSlice samples m) / 10) ^ 2 : ℚ) : ℝ) by push_cast; ring,
        Rat.cast_lt]
    rw [decide_eq_true_eq]
    constructor
    · intro hv
      exact ⟨hlen, h2, hiff.mpr hv⟩
    · rintro ⟨-, -, hc⟩
      exact hiff.mp hc
  · -- mean < 0
    have hlen : m ≤ samples.length := not_lt.mp h1
    have hneg : listAvg (lastSlice samples m) < 0 :=
      lt_of_le_of_ne (not_lt.mp h3) h2
    have hnegR : ((listAvg (lastSlice samples m) : ℚ) : ℝ) < 0 := by
      exact_mod_cast hneg
    simp only [true_iff]
    refine ⟨hlen, h2, ?_⟩
    have hnp : Real.sqrt ((listVariance (lastSlice samples m) : ℚ) : ℝ) /
        ((listAvg (lastSlice samples m) : ℚ) : ℝ) ≤ 0 :=
      div_nonpos_iff.mpr (Or.inl ⟨Real.sqrt_nonneg _, le_of_lt hnegR⟩)
    linarith

/-- Witness for `stability_uses_fixed_tenth` on five equal samples. -/
theorem stability_uses_fixed_tenth_witness :
    (1 : ℕ) ≤ 5 ∧
    (is_speed_stable [10, 10, 10, 10, 10] 3 5 = true ↔
      (5 ≤ ([10, 10, 10, 10, 10] : List ℚ).length ∧
       listAvg (lastSlice [10, 10, 10, 10, 10] 5) ≠ 0 ∧
       Real.sqrt ((listVariance (lastSlice [10, 10, 10, 10, 10] 5) : ℚ) : ℝ) /
         ((listAvg (lastSlice [10, 10, 10, 10, 10] 5) : ℚ) : ℝ) < 1 / 10)) :=
  ⟨by norm_num,
   stability_uses_fixed_tenth [10, 10, 10, 10, 10] 3 5 (by norm_num)⟩

theorem foldl_min_le (xs : List ℚ) : ∀ (a : ℚ),
    xs.foldl Min.min a ≤ a ∧ ∀ y ∈ xs, xs.foldl Min.min a ≤ y := by
  induction xs with
  | nil => intro a; exact ⟨le_refl _, by simp⟩
  | cons b bs ih =>
    intro a
    have h := ih (min a b)
    refine ⟨le_trans h.1 (min_le_left a b), ?_⟩
    intro y hy
    rcases List.mem_cons.mp hy with h1 | h1
    · rw [h1]; exact le_trans h.1 (min_le_right a b)
    · exact h.2 y h1

theorem le_foldl_max (xs : List ℚ) : ∀ (a : ℚ),
    a ≤ xs.foldl Max.max a ∧ ∀ y ∈ xs, y ≤ xs.foldl Max.max a := by
  induction xs with
  | nil => intro a; exact ⟨le_refl _, by simp⟩
  | cons b bs ih =>
    intro a
    have h := ih (max a b)
    refine ⟨le_trans (le_max_left a b) h.1, ?_⟩
    intro y hy
    rcases List.mem_cons.mp hy with h1 | h1
    · rw [h1]; exact le_trans (le_max_right a b) h.1
    · exact h.2 y h1

theorem listMin_le_avg (x : ℚ) (xs : List ℚ) :
    listMin x xs ≤ (x :: xs).sum / ((x :: xs).length : ℚ) := by
  have hlen : (0 : ℚ) < ((x :: xs).length : ℚ) := by
    exact_mod_cast Nat.succ_pos xs.length
  rw [le_div_iff₀ hlen]
  have hmin : ∀ y ∈ x :: xs, listMin x xs ≤ y := by
    intro y hy
    rcases List.mem_cons.mp hy with h1 | h1
    · rw [h1]; exact (foldl_min_le xs x).1
    · exact (foldl_min_le xs x).2 y h1
  have := List.card_nsmul_le_sum (x :: xs) (listMin x xs) hmin
  rw [nsmul_eq_mul] at this
  calc listMin x xs * ((x :: xs).length : ℚ)
      = ((x :: xs).length : ℚ) * listMin x xs := by ring
    _ ≤ (x :: xs).sum := this

theorem avg_le_listMax (x : ℚ) (xs : List ℚ) :
    (x :: xs).sum / ((x :: xs).length : ℚ) ≤ listMax x xs := by
  have hlen : (0 : ℚ) < ((x :: xs).length : ℚ) := by
    exact_mod_cast Nat.succ_pos xs.length
  rw [div_le_iff₀ hlen]
  have hmax : ∀ y ∈ x :: xs, y ≤ listMax x xs := by
    intro y hy
    rcases List.mem_cons.mp hy with h1 | h1
    · rw [h1]; exact (le_foldl_max xs x).1
    · exact (le_foldl_max xs x).2 y h1
  have := List.sum_le_card_nsmul (x :: xs) (listMax x xs) hmax
  rw [nsmul_eq_mul] at this
  calc (x :: xs).sum ≤ ((x :: xs).length : ℚ) * listMax x xs := this
    _ = listMax x xs * ((x :: xs).length : ℚ) := by ring

theorem sorted_getD_mem (l : List ℚ) (n : ℕ) (hn : n < l.length) :
    (List.insertionSort (· ≤ ·) l).getD n 0 ∈ l := by
  have hperm := List.perm_insertionSort (· ≤ ·) l
  have hlen : (List.insertionSort (· ≤ ·) l).length = l.length := hperm.length_eq
  have hn' : n < (List.insertionSort (· ≤ ·) l).length := by rw [hlen]; exact hn
  rw [List.getD_eq_getElem _ _ hn']
  exact hperm.mem_iff.mp (List.getElem_mem hn')

/-- Claim C8: for every latency sample list with at least one element,
the computed statistics satisfy `min ≤ avg ≤ max`, and the reported
median is an element of the input list. -/
theorem ping_stats_bounds :
    ∀ (l : List ℚ) (s : PingStats), calculate_ping_stats l = some s →
      s.min ≤ s.avg ∧ s.avg ≤ s.max ∧ s.median ∈ l := by
  intro l s hs
  cases l with
  | nil => exact absurd hs (by simp [calculate_ping_stats])
  | cons x xs =>
    simp only [calculate_ping_stats] at hs
    obtain rfl := (Option.some_inj.mp hs).symm
    refine ⟨listMin_le_avg x xs, avg_le_listMax x xs, ?_⟩
    exact sorted_getD_mem (x :: xs) _
      (Nat.div_lt_self (by simp) one_lt_two)

/-- Witness for `ping_stats_bounds` on the list `[3, 1, 2]`. -/
theorem ping_stats_bounds_witness :
    calculate_ping_stats [3, 1, 2] = some ⟨1, 3, 2, 2, 2 / 3, 3⟩ ∧
    ((1 : ℚ) ≤ 2 ∧ (2 : ℚ) ≤ 3 ∧ (2 : ℚ) ∈ ([3, 1, 2] : List ℚ)) := by
  have h : calculate_ping_stats [3, 1, 2] = some ⟨1, 3, 2, 2, 2 / 3, 3⟩ := by
    with_unfolding_all rfl
  exact ⟨h, ping_stats_bounds [3, 1, 2] ⟨1, 3, 2, 2, 2 / 3, 3⟩ h⟩

end Speedtest
